import Mathlib

/-!
Verification development for the lair keystore server configuration module
(`crates/lair_keystore_api/src/config.rs`).

The development shallowly embeds three views of the module:

* a textual view of the configuration record and its YAML rendering /
  parsing (`LairServerConfigInner`, `fmtLines`, `from_bytes`), used for the
  serialization round-trip and comment-banner properties;
* a connection-url view (`Url`, `get_server_pub_key_from_connection_url`,
  `get_connection_path`), used for the locator decoding properties;
* a symbolic view of the constructor `LairServerConfigInner::new`
  (`SVal`, `configNew`), in which the cryptographic primitives are
  constructors of a free algebra, used for the key-derivation dataflow
  properties.

Text is modelled at the level of lines, each line a `List Char`.
-/

/-- Drop the prefix `pre` from `l`, returning the rest of `l`, or `none`
when `pre` is not a prefix of `l`.  Small utility used to model the
`starts_with` tests of the Rust code and the key-value line parsing. -/
def dropPfx : List Char → List Char → Option (List Char)
  | [], l => some l
  | _ :: _, [] => none
  | a :: ps, b :: l => if a == b then dropPfx ps l else none

theorem dropPfx_append (p rest : List Char) : dropPfx p (p ++ rest) = some rest := by
  induction p with
  | nil => rfl
  | cons a ps ih => simp [dropPfx, ih]

theorem dropPfx_ne_head (a b : Char) (ps l : List Char) (h : (a == b) = false) :
    dropPfx (a :: ps) (b :: l) = none := by
  simp [dropPfx, h]

theorem dropPfx_cons_self (a : Char) (ps l : List Char) :
    dropPfx (a :: ps) (a :: l) = dropPfx ps l := by
  simp [dropPfx]

/-- Evaluating `dropPfx` on an appended tail: when the probed prefix is no
longer than the concrete front part `q`, the tail `v` is irrelevant to
whether the match fails, and on success the tail rides along. -/
theorem dropPfx_append_left (p q v : List Char) (h : p.length ≤ q.length) :
    dropPfx p (q ++ v) = (dropPfx p q).map (· ++ v) := by
  induction p generalizing q with
  | nil => simp [dropPfx]
  | cons a ps ih =>
    cases q with
    | nil => simp at h
    | cons b qs =>
      simp only [List.cons_append, dropPfx]
      cases hab : (a == b)
      · simp
      · simp [ih qs (by simpa using h)]

/-- Boolean test that `pre` is a prefix of `l`; models Rust `starts_with`. -/
def startsWithL (pre l : List Char) : Bool := (dropPfx pre l).isSome

theorem startsWithL_append_eval (pre q v : List Char) (h : pre.length ≤ q.length) :
    startsWithL pre (q ++ v) = startsWithL pre q := by
  unfold startsWithL
  rw [dropPfx_append_left pre q v h]
  cases dropPfx pre q <;> rfl

/-! ## Base-16 codec for fixed-size binary values

The crate encodes `BinDataSized` values with a stable textual encoding that
round-trips exactly; the concrete alphabet is implemented outside the file
under study, so a base-16 alphabet is used here. -/

/-- Hexadecimal digit of a value below 16. -/
def hexDigitChar (n : Nat) : Char := "0123456789abcdef".data.getD n '0'

/-- Value of a hexadecimal digit character. -/
def hexVal (c : Char) : Option Nat := "0123456789abcdef".data.findIdx? (· == c)

/-- Modelled from the spec: the stable textual rendering of binary data
(`BinDataSized` printing, implemented outside the file under study);
each byte becomes two base-16 digits. -/
def hexEncode : List Nat → List Char
  | [] => []
  | b :: bs => hexDigitChar (b / 16) :: hexDigitChar (b % 16) :: hexEncode bs

/-- Modelled from the spec: parsing the stable textual rendering of binary
data back into bytes; fails on any character outside the alphabet or an
odd-length input. -/
def hexDecode : List Char → Option (List Nat)
  | [] => some []
  | [_] => none
  | c1 :: c2 :: rest =>
    match hexVal c1, hexVal c2, hexDecode rest with
    | some hi, some lo, some bs => some ((hi * 16 + lo) :: bs)
    | _, _, _ => none

theorem hexVal_hexDigitChar : ∀ n < 16, hexVal (hexDigitChar n) = some n := by decide

theorem hexDecode_hexEncode (bs : List Nat) (h : ∀ b ∈ bs, b < 256) :
    hexDecode (hexEncode bs) = some bs := by
  induction bs with
  | nil => rfl
  | cons b rest ih =>
    have hb : b < 256 := h b (by simp)
    have h1 : hexVal (hexDigitChar (b / 16)) = some (b / 16) :=
      hexVal_hexDigitChar _ (by omega)
    have h2 : hexVal (hexDigitChar (b % 16)) = some (b % 16) :=
      hexVal_hexDigitChar _ (by omega)
    have hrest : hexDecode (hexEncode rest) = some rest :=
      ih (fun x hx => h x (by simp [hx]))
    simp only [hexEncode, hexDecode, h1, h2, hrest]
    have : b / 16 * 16 + b % 16 = b := by omega
    rw [this]

/-! ## Decimal codec for the numeric limits -/

/-- Decimal rendering of a natural number (YAML integer scalar). -/
def natToDec (n : Nat) : List Char :=
  if n = 0 then ['0'] else ((Nat.digits 10 n).map Nat.digitChar).reverse

/-- Parse a decimal scalar; fails on the empty string or a non-digit. -/
def decToNat? (l : List Char) : Option Nat :=
  if l = [] then none
  else if l.all Char.isDigit then
    some (l.foldl (fun a c => a * 10 + (c.toNat - 48)) 0)
  else none

theorem digitChar_isDigit : ∀ d < 10, (Nat.digitChar d).isDigit = true := by decide

theorem digitChar_val : ∀ d < 10, (Nat.digitChar d).toNat - 48 = d := by decide

theorem foldl_congr_mem {α β : Type} (f g : β → α → β) (l : List α) (b : β)
    (h : ∀ a ∈ l, ∀ x, f x a = g x a) : l.foldl f b = l.foldl g b := by
  induction l generalizing b with
  | nil => rfl
  | cons a rest ih =>
    simp only [List.foldl_cons]
    rw [h a (by simp)]
    exact ih _ (fun x hx y => h x (by simp [hx]) y)

theorem foldl_dec_eq_ofDigits (ds : List Nat) :
    ds.reverse.foldl (fun a d => a * 10 + d) 0 = Nat.ofDigits 10 ds := by
  rw [List.foldl_reverse]
  induction ds with
  | nil => simp [Nat.ofDigits]
  | cons d rest ih => simp [Nat.ofDigits_cons, ih]; ring

theorem decToNat?_natToDec (n : Nat) : decToNat? (natToDec n) = some n := by
  by_cases h0 : n = 0
  · subst h0; decide
  · have hlt : ∀ d ∈ Nat.digits 10 n, d < 10 := fun d hd =>
      Nat.digits_lt_base (by norm_num) hd
    have hne : Nat.digits 10 n ≠ [] := Nat.digits_ne_nil_iff_ne_zero.mpr h0
    unfold natToDec decToNat?
    rw [if_neg h0]
    have hnil : ((Nat.digits 10 n).map Nat.digitChar).reverse ≠ [] := by
      simp [hne]
    rw [if_neg hnil]
    have hall : (((Nat.digits 10 n).map Nat.digitChar).reverse.all Char.isDigit) = true := by
      rw [List.all_eq_true]
      intro c hc
      rw [List.mem_reverse, List.mem_map] at hc
      obtain ⟨d, hd, rfl⟩ := hc
      exact digitChar_isDigit d (hlt d hd)
    rw [if_pos hall]
    congr 1
    rw [← List.map_reverse, List.foldl_map]
    have step :
        (Nat.digits 10 n).reverse.foldl (fun a d => a * 10 + ((Nat.digitChar d).toNat - 48)) 0 =
        (Nat.digits 10 n).reverse.foldl (fun a d => a * 10 + d) 0 := by
      apply foldl_congr_mem
      intro d hd a
      rw [digitChar_val d (hlt d (List.mem_reverse.mp hd))]
    rw [step, foldl_dec_eq_ofDigits, Nat.ofDigits_digits]

/-! ## The configuration record and its YAML document

`LairServerConfigInner` mirrors the Rust struct of the same name, at the
textual level used by serialization: the url and path fields are their
rendered strings, the binary fields are byte lists.  Documents are lists
of lines. -/

/-- Mirrors `enum LairServerSignatureFallback`: either no fallback or a
command with a program and optional argument list. -/
inductive LairServerSignatureFallback : Type
  | none : LairServerSignatureFallback
  | command (program : List Char) (args : Option (List (List Char))) :
      LairServerSignatureFallback
  deriving DecidableEq

/-- Mirrors `struct LairServerConfigInner` for serialization purposes.
`connection_url`, `pid_file` and `store_file` hold the rendered text of
the url / paths; the four binary fields hold raw bytes (16-byte salts,
49-byte ciphertexts); the two limits are the argon2id cost parameters. -/
structure LairServerConfigInner : Type where
  connection_url : List Char
  pid_file : List Char
  store_file : List Char
  signature_fallback : LairServerSignatureFallback
  database_salt : List Nat
  runtime_secrets_salt : List Nat
  runtime_secrets_mem_limit : Nat
  runtime_secrets_ops_limit : Nat
  runtime_secrets_context_key : List Nat
  runtime_secrets_id_seed : List Nat
  deriving DecidableEq

/-! Fixed text fragments of the YAML document. -/

def cuKey : List Char := "connectionUrl: ".data
def pidKey : List Char := "pidFile: ".data
def storeKey : List Char := "storeFile: ".data
def dbKey : List Char := "databaseSalt: ".data
def saltKey : List Char := "runtimeSecretsSalt: ".data
def memKey : List Char := "runtimeSecretsMemLimit: ".data
def opsKey : List Char := "runtimeSecretsOpsLimit: ".data
def ctxKey : List Char := "runtimeSecretsContextKey: ".data
def seedKey : List Char := "runtimeSecretsIdSeed: ".data
def progKey : List Char := "  program: ".data
def itemPfx : List Char := "  - ".data
def sigNoneL : List Char := "signatureFallback: none".data
def sigCmdL : List Char := "signatureFallback: !command".data
def argsNullL : List Char := "  args: null".data
def argsEmptyL : List Char := "  args: []".data
def argsKeyL : List Char := "  args:".data
def markerL : List Char := "---".data

/-- Modelled from the spec: the `serde_yaml` rendering of the
`signatureFallback` field (the crate manifest pinning the serializer is
not under the sources given).  A unit variant renders as its name, the
`command` variant as a tagged nested mapping with `program` and the
optional `args` sequence. -/
def sigYamlLines : LairServerSignatureFallback → List (List Char)
  | .none => [sigNoneL]
  | .command p args =>
    sigCmdL :: (progKey ++ p) ::
      (match args with
        | Option.none => [argsNullL]
        | some [] => [argsEmptyL]
        | some (x :: xs) => argsKeyL :: (x :: xs).map (fun a => itemPfx ++ a))

/-- Modelled from the spec: the body lines of the `serde_yaml` document for
a configuration record — one `key: value` line per field, in declaration
order, with camelCase field names. -/
def bodyLines (c : LairServerConfigInner) : List (List Char) :=
  (cuKey ++ c.connection_url) ::
  (pidKey ++ c.pid_file) ::
  (storeKey ++ c.store_file) ::
  (sigYamlLines c.signature_fallback ++
    ((dbKey ++ hexEncode c.database_salt) ::
     (saltKey ++ hexEncode c.runtime_secrets_salt) ::
     (memKey ++ natToDec c.runtime_secrets_mem_limit) ::
     (opsKey ++ natToDec c.runtime_secrets_ops_limit) ::
     (ctxKey ++ hexEncode c.runtime_secrets_context_key) ::
     (seedKey ++ hexEncode c.runtime_secrets_id_seed) :: []))

/-- Modelled from the spec: the full `serde_yaml::to_string` output as a
line list — a leading document marker, the body, and the trailing line
produced by the final newline.  The marker line is what makes the comment
banner of the first field appear (see `bannerFor` and the `id > 0` guard
mirrored in `injectComments`). -/
def yamlLines (c : LairServerConfigInner) : List (List Char) :=
  markerL :: bodyLines c ++ [[]]

/-- The fixed comment banner injected before the `connectionUrl` line. -/
def cuBanner : List (List Char) :=
  [[],
   "# The connection url for communications between server / client.".data,
   "# - `unix:///path/to/unix/socket?k=Yada`".data,
   "# - `named_pipe:\\\\.\\pipe\\my_pipe_name?k=Yada`".data,
   "# - (not yet supported) `tcp://127.0.0.1:12345?k=Yada`".data]

/-- The fixed comment banner injected before the `pidFile` line. -/
def pidBanner : List (List Char) :=
  [[], "# The pid file for managing a running lair-keystore process".data]

/-- The fixed comment banner injected before the `storeFile` line. -/
def storeBanner : List (List Char) :=
  [[], "# The sqlcipher store file for persisting secrets".data]

/-- The fixed comment banner injected before the `signatureFallback` line. -/
def sigBanner : List (List Char) :=
  [[],
   "# Configuration for managing sign_by_pub_key fallback".data,
   "# in case the pub key does not exist in the lair store.".data,
   "# - `signatureFallback: none`".data,
   "# - ```".data,
   "#   signatureFallback: !command".data,
   "#     # \x27program\x27 will resolve to a path, specifying \x27echo\x27".data,
   "#     # will try to run \x27./echo\x27, probably not what you want.".data,
   "#     program: \"./my-executable\"".data,
   "#     # args are optional".data,
   "#     args:".data,
   "#       - test-arg1".data,
   "#       - test-arg2".data,
   "#   ```".data]

/-- The fixed comment banner injected before the `databaseSalt` line. -/
def dbBanner : List (List Char) :=
  [[],
   "# -- cryptographic secrets --".data,
   "# If you modify the data below, you risk losing access to your keys.".data]

/-- Mirrors the `starts_with` dispatch inside the `Display` implementation:
the banner (possibly empty) pushed just before a given line. -/
def bannerFor (line : List Char) : List (List Char) :=
  if startsWithL "connectionUrl:".data line then cuBanner
  else if startsWithL "pidFile:".data line then pidBanner
  else if startsWithL "storeFile:".data line then storeBanner
  else if startsWithL "signatureFallback:".data line then sigBanner
  else if startsWithL "databaseSalt:".data line then dbBanner
  else []

/-- Mirrors the comment-injection loop of the `Display` implementation:
walk the enumerated lines, and before every line other than the first
push the banner selected by `bannerFor`. -/
def injectComments : Nat → List (List Char) → List (List Char)
  | _, [] => []
  | id, l :: rest => (if 0 < id then bannerFor l else []) ++ l :: injectComments (id + 1) rest

/-- Mirrors `impl Display for LairServerConfigInner`: serialize to YAML,
then inject the helpful comment banners. -/
def fmtLines (c : LairServerConfigInner) : List (List Char) :=
  injectComments 0 (yamlLines c)

/-! ### The parser (`from_bytes`) -/

/-- Modelled from the spec: a line the YAML parser ignores — a blank line,
a comment line, or the document start marker. -/
def isIgnoredLine (l : List Char) : Bool :=
  l.isEmpty || startsWithL ['#'] l || l == markerL

/-- Lines of the document that carry content. -/
def stripIgnored (lines : List (List Char)) : List (List Char) :=
  lines.filter (fun l => !isIgnoredLine l)

/-- Modelled from the spec: parse a binary field value — decode the stable
textual encoding and check the expected size. -/
def parseBinL (n : Nat) (l : List Char) : Option (List Nat) :=
  match hexDecode l with
  | some bs => if bs.length = n then some bs else none
  | none => none

/-- Collect the `- item` lines of a block sequence. -/
def takeItems : List (List Char) → List (List Char) × List (List Char)
  | [] => ([], [])
  | l :: rest =>
    match dropPfx itemPfx l with
    | some v =>
      match takeItems rest with
      | (items, r) => (v :: items, r)
    | none => ([], l :: rest)

/-- Modelled from the spec: parse the `signatureFallback` field (unit
variant, or tagged `!command` mapping with `program` and optional `args`),
returning the value and the remaining lines. -/
def parseSigFallback :
    List (List Char) → Option (LairServerSignatureFallback × List (List Char))
  | [] => none
  | l :: rest =>
    if l = sigNoneL then some (.none, rest)
    else if l = sigCmdL then
      match rest with
      | [] => none
      | p :: rest2 =>
        match dropPfx progKey p with
        | none => none
        | some pv =>
          match rest2 with
          | [] => none
          | a :: rest3 =>
            if a = argsNullL then some (.command pv Option.none, rest3)
            else if a = argsEmptyL then some (.command pv (some []), rest3)
            else if a = argsKeyL then
              match takeItems rest3 with
              | (items, r) => some (.command pv (some items), r)
            else none
    else none

/-- Final stage of the field parser: decode the six trailing field values
and assemble the record. -/
def finishFields (cu pid store : List Char) (sf : LairServerSignatureFallback)
    (dbv saltv memv opsv ctxv seedv : List Char) : Option LairServerConfigInner :=
  match parseBinL 16 dbv, parseBinL 16 saltv, decToNat? memv, decToNat? opsv,
      parseBinL 49 ctxv, parseBinL 49 seedv with
  | some dbb, some saltb, some memn, some opsn, some ctxb, some seedb =>
    some ⟨cu, pid, store, sf, dbb, saltb, memn, opsn, ctxb, seedb⟩
  | _, _, _, _, _, _ => none

/-- Middle stage of the field parser: after the fallback field, expect the
six remaining `key: value` lines in order. -/
def parseTail (cu pid store : List Char)
    (sfr : Option (LairServerSignatureFallback × List (List Char))) :
    Option LairServerConfigInner :=
  match sfr with
  | some (sf, [db, salt, mem, ops, ctx, seed]) =>
    match dropPfx dbKey db, dropPfx saltKey salt, dropPfx memKey mem,
        dropPfx opsKey ops, dropPfx ctxKey ctx, dropPfx seedKey seed with
    | some dbv, some saltv, some memv, some opsv, some ctxv, some seedv =>
      finishFields cu pid store sf dbv saltv memv opsv ctxv seedv
    | _, _, _, _, _, _ => none
  | _ => none

/-- Modelled from the spec: parse the content lines of a configuration
document into a record — the fields in declaration order, each from its
`key: value` line. -/
def fromCleanLines : List (List Char) → Option LairServerConfigInner
  | cu :: pid :: store :: rest =>
    match dropPfx cuKey cu, dropPfx pidKey pid, dropPfx storeKey store with
    | some cuv, some pidv, some storev => parseTail cuv pidv storev (parseSigFallback rest)
    | _, _, _ => none
  | _ => none

/-- Mirrors `LairServerConfigInner::from_bytes` at the line level: YAML
parsing ignores blank lines, comments and the document marker, then reads
the structured fields. -/
def from_bytes (lines : List (List Char)) : Option LairServerConfigInner :=
  fromCleanLines (stripIgnored lines)

/-! ### Evaluation lemmas for the comment machinery -/

theorem stripIgnored_append (A B : List (List Char)) :
    stripIgnored (A ++ B) = stripIgnored A ++ stripIgnored B := List.filter_append A B

theorem strip_cons_keep (l : List Char) (L : List (List Char)) (h : isIgnoredLine l = false) :
    stripIgnored (l :: L) = l :: stripIgnored L := by
  simp [stripIgnored, List.filter_cons, h]

theorem strip_cons_drop (l : List Char) (L : List (List Char)) (h : isIgnoredLine l = true) :
    stripIgnored (l :: L) = stripIgnored L := by
  simp [stripIgnored, List.filter_cons, h]

theorem ign_blank : isIgnoredLine [] = true := rfl

theorem ign_marker : isIgnoredLine markerL = true := rfl

theorem stripIgnored_bannerFor (l : List Char) : stripIgnored (bannerFor l) = [] := by
  unfold bannerFor
  split
  · rfl
  split
  · rfl
  split
  · rfl
  split
  · rfl
  split
  · rfl
  · rfl

/-- Comment injection adds only lines that the parser ignores. -/
theorem strip_injectComments (i : Nat) (L : List (List Char)) :
    stripIgnored (injectComments i L) = stripIgnored L := by
  induction L generalizing i with
  | nil => rfl
  | cons l rest ih =>
    unfold injectComments
    have tail : stripIgnored (l :: injectComments (i + 1) rest) = stripIgnored (l :: rest) := by
      cases h : isIgnoredLine l with
      | false => rw [strip_cons_keep _ _ h, strip_cons_keep _ _ h, ih]
      | true => rw [strip_cons_drop _ _ h, strip_cons_drop _ _ h, ih]
    by_cases hi : 0 < i
    · rw [if_pos hi, stripIgnored_append, stripIgnored_bannerFor, List.nil_append, tail]
    · rw [if_neg hi, List.nil_append, tail]

theorem notIgn_cu (v : List Char) : isIgnoredLine (cuKey ++ v) = false := rfl
theorem notIgn_pid (v : List Char) : isIgnoredLine (pidKey ++ v) = false := rfl
theorem notIgn_store (v : List Char) : isIgnoredLine (storeKey ++ v) = false := rfl
theorem notIgn_signone : isIgnoredLine sigNoneL = false := rfl
theorem notIgn_sigcmd : isIgnoredLine sigCmdL = false := rfl
theorem notIgn_prog (v : List Char) : isIgnoredLine (progKey ++ v) = false := rfl
theorem notIgn_argsnull : isIgnoredLine argsNullL = false := rfl
theorem notIgn_argsempty : isIgnoredLine argsEmptyL = false := rfl
theorem notIgn_argskey : isIgnoredLine argsKeyL = false := rfl
theorem notIgn_item (v : List Char) : isIgnoredLine (itemPfx ++ v) = false := rfl
theorem notIgn_db (v : List Char) : isIgnoredLine (dbKey ++ v) = false := rfl
theorem notIgn_salt (v : List Char) : isIgnoredLine (saltKey ++ v) = false := rfl
theorem notIgn_mem (v : List Char) : isIgnoredLine (memKey ++ v) = false := rfl
theorem notIgn_ops (v : List Char) : isIgnoredLine (opsKey ++ v) = false := rfl
theorem notIgn_ctx (v : List Char) : isIgnoredLine (ctxKey ++ v) = false := rfl
theorem notIgn_seed (v : List Char) : isIgnoredLine (seedKey ++ v) = false := rfl

theorem stripIgnored_sigYamlLines (sf : LairServerSignatureFallback) :
    stripIgnored (sigYamlLines sf) = sigYamlLines sf := by
  cases sf with
  | none => rfl
  | command p args =>
    cases args with
    | none =>
      show stripIgnored (sigCmdL :: (progKey ++ p) :: [argsNullL]) = _
      rw [strip_cons_keep _ _ notIgn_sigcmd, strip_cons_keep _ _ (notIgn_prog p),
        strip_cons_keep _ _ notIgn_argsnull]
      rfl
    | some l =>
      cases l with
      | nil =>
        show stripIgnored (sigCmdL :: (progKey ++ p) :: [argsEmptyL]) = _
        rw [strip_cons_keep _ _ notIgn_sigcmd, strip_cons_keep _ _ (notIgn_prog p),
          strip_cons_keep _ _ notIgn_argsempty]
        rfl
      | cons x xs =>
        show stripIgnored (sigCmdL :: (progKey ++ p) :: argsKeyL ::
          (x :: xs).map (fun a => itemPfx ++ a)) = _
        rw [strip_cons_keep _ _ notIgn_sigcmd, strip_cons_keep _ _ (notIgn_prog p),
          strip_cons_keep _ _ notIgn_argskey]
        have items : ∀ ys : List (List Char),
            stripIgnored (ys.map (fun a => itemPfx ++ a)) = ys.map (fun a => itemPfx ++ a) := by
          intro ys
          induction ys with
          | nil => rfl
          | cons a rest ih =>
            simp only [List.map_cons]
            rw [strip_cons_keep _ _ (notIgn_item a), ih]
        rw [items]
        rfl

/-- The content lines of the rendered document are exactly the body lines:
the marker and the trailing blank are stripped, every body line is kept. -/
theorem stripIgnored_yamlLines (c : LairServerConfigInner) :
    stripIgnored (yamlLines c) = bodyLines c := by
  unfold yamlLines
  rw [stripIgnored_append, strip_cons_drop _ _ ign_marker,
    show stripIgnored [[]] = [] from rfl, List.append_nil]
  unfold bodyLines
  rw [strip_cons_keep _ _ (notIgn_cu _), strip_cons_keep _ _ (notIgn_pid _),
    strip_cons_keep _ _ (notIgn_store _), stripIgnored_append, stripIgnored_sigYamlLines,
    strip_cons_keep _ _ (notIgn_db _), strip_cons_keep _ _ (notIgn_salt _),
    strip_cons_keep _ _ (notIgn_mem _), strip_cons_keep _ _ (notIgn_ops _),
    strip_cons_keep _ _ (notIgn_ctx _), strip_cons_keep _ _ (notIgn_seed _)]
  rfl

/-! ### Evaluation lemmas for the parser -/

theorem parseSig_none (rest : List (List Char)) :
    parseSigFallback (sigNoneL :: rest) =
      some (LairServerSignatureFallback.none, rest) := rfl

theorem parseSig_cmd_null (p : List Char) (rest : List (List Char)) :
    parseSigFallback (sigCmdL :: (progKey ++ p) :: argsNullL :: rest) =
      some (LairServerSignatureFallback.command p Option.none, rest) := rfl

theorem parseSig_cmd_empty (p : List Char) (rest : List (List Char)) :
    parseSigFallback (sigCmdL :: (progKey ++ p) :: argsEmptyL :: rest) =
      some (LairServerSignatureFallback.command p (some []), rest) := rfl

theorem takeItems_map_stop (xs : List (List Char)) (l : List Char) (r : List (List Char))
    (h : dropPfx itemPfx l = none) :
    takeItems (xs.map (fun a => itemPfx ++ a) ++ l :: r) = (xs, l :: r) := by
  induction xs with
  | nil =>
    simp only [List.map_nil, List.nil_append]
    simp only [takeItems, h]
  | cons a rest ih =>
    simp only [List.map_cons, List.cons_append]
    calc takeItems ((itemPfx ++ a) :: (rest.map (fun a => itemPfx ++ a) ++ l :: r))
        = (a :: (takeItems (rest.map (fun a => itemPfx ++ a) ++ l :: r)).1,
           (takeItems (rest.map (fun a => itemPfx ++ a) ++ l :: r)).2) := rfl
      _ = (a :: rest, l :: r) := by rw [ih]

theorem parseSig_cmd_items (p : List Char) (xs : List (List Char))
    (l : List Char) (r : List (List Char)) (h : dropPfx itemPfx l = none) :
    parseSigFallback (sigCmdL :: (progKey ++ p) :: argsKeyL ::
        (xs.map (fun a => itemPfx ++ a) ++ l :: r)) =
      some (LairServerSignatureFallback.command p (some xs), l :: r) := by
  calc parseSigFallback (sigCmdL :: (progKey ++ p) :: argsKeyL ::
          (xs.map (fun a => itemPfx ++ a) ++ l :: r))
      = some (LairServerSignatureFallback.command p
          (some (takeItems (xs.map (fun a => itemPfx ++ a) ++ l :: r)).1),
          (takeItems (xs.map (fun a => itemPfx ++ a) ++ l :: r)).2) := rfl
    _ = some (LairServerSignatureFallback.command p (some xs), l :: r) := by
        rw [takeItems_map_stop xs l r h]

theorem parseBinL_hexEncode (n : Nat) (bs : List Nat)
    (hlen : bs.length = n) (hlt : ∀ b ∈ bs, b < 256) :
    parseBinL n (hexEncode bs) = some bs := by
  unfold parseBinL
  rw [hexDecode_hexEncode bs hlt]
  simp [hlen]

theorem finishFields_eval (cu pid store : List Char) (sf : LairServerSignatureFallback)
    (db salt : List Nat) (mem ops : Nat) (ctx seed : List Nat)
    (hdb : db.length = 16 ∧ ∀ b ∈ db, b < 256)
    (hsalt : salt.length = 16 ∧ ∀ b ∈ salt, b < 256)
    (hctx : ctx.length = 49 ∧ ∀ b ∈ ctx, b < 256)
    (hseed : seed.length = 49 ∧ ∀ b ∈ seed, b < 256) :
    finishFields cu pid store sf (hexEncode db) (hexEncode salt) (natToDec mem)
      (natToDec ops) (hexEncode ctx) (hexEncode seed) =
      some ⟨cu, pid, store, sf, db, salt, mem, ops, ctx, seed⟩ := by
  unfold finishFields
  rw [parseBinL_hexEncode 16 db hdb.1 hdb.2, parseBinL_hexEncode 16 salt hsalt.1 hsalt.2,
    parseBinL_hexEncode 49 ctx hctx.1 hctx.2, parseBinL_hexEncode 49 seed hseed.1 hseed.2,
    decToNat?_natToDec mem, decToNat?_natToDec ops]

/-- Parsing the body lines of a well-formed record recovers the record. -/
theorem fromCleanLines_bodyLines (c : LairServerConfigInner)
    (hdb : c.database_salt.length = 16 ∧ ∀ b ∈ c.database_salt, b < 256)
    (hsalt : c.runtime_secrets_salt.length = 16 ∧ ∀ b ∈ c.runtime_secrets_salt, b < 256)
    (hctx : c.runtime_secrets_context_key.length = 49 ∧
      ∀ b ∈ c.runtime_secrets_context_key, b < 256)
    (hseed : c.runtime_secrets_id_seed.length = 49 ∧ ∀ b ∈ c.runtime_secrets_id_seed, b < 256) :
    fromCleanLines (bodyLines c) = some c := by
  obtain ⟨cu, pid, store, sf, db, salt, mem, ops, ctx, seed⟩ := c
  cases sf with
  | none =>
    calc fromCleanLines (bodyLines ⟨cu, pid, store, .none, db, salt, mem, ops, ctx, seed⟩)
        = finishFields cu pid store .none (hexEncode db) (hexEncode salt) (natToDec mem)
            (natToDec ops) (hexEncode ctx) (hexEncode seed) := rfl
      _ = some ⟨cu, pid, store, .none, db, salt, mem, ops, ctx, seed⟩ :=
          finishFields_eval cu pid store _ db salt mem ops ctx seed hdb hsalt hctx hseed
  | command p args =>
    cases args with
    | none =>
      calc fromCleanLines
            (bodyLines ⟨cu, pid, store, .command p Option.none, db, salt, mem, ops, ctx, seed⟩)
          = finishFields cu pid store (.command p Option.none) (hexEncode db) (hexEncode salt)
              (natToDec mem) (natToDec ops) (hexEncode ctx) (hexEncode seed) := rfl
        _ = some ⟨cu, pid, store, .command p Option.none, db, salt, mem, ops, ctx, seed⟩ :=
            finishFields_eval cu pid store _ db salt mem ops ctx seed hdb hsalt hctx hseed
    | some l =>
      cases l with
      | nil =>
        calc fromCleanLines
              (bodyLines ⟨cu, pid, store, .command p (some []), db, salt, mem, ops, ctx, seed⟩)
            = finishFields cu pid store (.command p (some [])) (hexEncode db) (hexEncode salt)
                (natToDec mem) (natToDec ops) (hexEncode ctx) (hexEncode seed) := rfl
          _ = some ⟨cu, pid, store, .command p (some []), db, salt, mem, ops, ctx, seed⟩ :=
              finishFields_eval cu pid store _ db salt mem ops ctx seed hdb hsalt hctx hseed
      | cons x xs =>
        calc fromCleanLines (bodyLines
              ⟨cu, pid, store, .command p (some (x :: xs)), db, salt, mem, ops, ctx, seed⟩)
            = parseTail cu pid store (parseSigFallback (sigCmdL :: (progKey ++ p) :: argsKeyL ::
                ((x :: xs).map (fun a => itemPfx ++ a) ++ (dbKey ++ hexEncode db) ::
                  (saltKey ++ hexEncode salt) :: (memKey ++ natToDec mem) ::
                  (opsKey ++ natToDec ops) :: (ctxKey ++ hexEncode ctx) ::
                  (seedKey ++ hexEncode seed) :: []))) := rfl
          _ = parseTail cu pid store (some (.command p (some (x :: xs)),
                (dbKey ++ hexEncode db) :: (saltKey ++ hexEncode salt) ::
                (memKey ++ natToDec mem) :: (opsKey ++ natToDec ops) ::
                (ctxKey ++ hexEncode ctx) :: (seedKey ++ hexEncode seed) :: [])) := by
              rw [parseSig_cmd_items p (x :: xs) (dbKey ++ hexEncode db) _ rfl]
          _ = finishFields cu pid store (.command p (some (x :: xs))) (hexEncode db)
                (hexEncode salt) (natToDec mem) (natToDec ops) (hexEncode ctx)
                (hexEncode seed) := rfl
          _ = some ⟨cu, pid, store, .command p (some (x :: xs)), db, salt, mem, ops, ctx, seed⟩ :=
              finishFields_eval cu pid store _ db salt mem ops ctx seed hdb hsalt hctx hseed

/-! ### Well-formedness predicates for round-trip statements -/

/-- A byte list of the given length with byte-range entries. -/
abbrev BytesN (n : Nat) (l : List Nat) : Prop := l.length = n ∧ ∀ b ∈ l, b < 256

/-- A string value that renders as a plain one-line YAML scalar: nonempty,
no newline, no comment character, no leading or trailing blank.  Inside
this region the line-level document model coincides with real YAML. -/
abbrev PlainVal (v : List Char) : Prop :=
  v ≠ [] ∧ '\n' ∉ v ∧ '#' ∉ v ∧ v.head? ≠ some ' ' ∧ v.getLast? ≠ some ' '

/-- Plain-scalar well-formedness of the fallback value. -/
abbrev SigPlain : LairServerSignatureFallback → Prop
  | .none => True
  | .command p args =>
    PlainVal p ∧
      (match args with
        | Option.none => True
        | some l => l ≠ [] ∧ ∀ a ∈ l, PlainVal a)

/-- C1: for every well-formed `LairServerConfigInner` record (in particular
one whose `signature_fallback` has been reassigned to the `Command` variant
with a program and two args), rendering it with the `Display`
implementation and parsing the resulting text with `from_bytes` yields a
record equal to the original in every field; the injected comment lines
are ignored by the parser. -/
theorem config_display_roundtrip (c : LairServerConfigInner)
    (_hcu : PlainVal c.connection_url) (_hpid : PlainVal c.pid_file)
    (_hstore : PlainVal c.store_file) (_hsig : SigPlain c.signature_fallback)
    (hdb : BytesN 16 c.database_salt) (hsalt : BytesN 16 c.runtime_secrets_salt)
    (hctx : BytesN 49 c.runtime_secrets_context_key)
    (hseed : BytesN 49 c.runtime_secrets_id_seed) :
    from_bytes (fmtLines c) = some c := by
  unfold from_bytes fmtLines
  rw [strip_injectComments, stripIgnored_yamlLines]
  exact fromCleanLines_bodyLines c hdb hsalt hctx hseed

/-- A concrete record whose fallback is a `Command` with two args. -/
abbrev cfgW : LairServerConfigInner :=
  ⟨"unix:///tmp/x/socket?k=abcd".data, "/tmp/x/pid_file".data, "/tmp/x/store_file".data,
   .command "./my-executable".data (some ["test-arg1".data, "test-arg2".data]),
   List.replicate 16 0, List.replicate 16 1, 8, 4,
   List.replicate 49 2, List.replicate 49 3⟩

/-- Witness for C1 at a concrete record with a two-argument `Command`
fallback. -/
theorem config_display_roundtrip_witness : from_bytes (fmtLines cfgW) = some cfgW :=
  config_display_roundtrip cfgW (by decide) (by decide) (by decide) (by decide)
    (by decide) (by decide) (by decide) (by decide)

/-! ## The connection-url view

`Url` models a parsed `url::Url` by its components: the scheme, the
authority host (absent for `unix:///...` locators, present when text
follows the `//` directly), the path, and the decoded query pairs. -/

structure Url : Type where
  scheme : String
  host : Option String
  path : List Char
  query : List (String × String)
  deriving DecidableEq

/-- The error message of the missing-key failure, from the source. -/
def noPubKeyMsg : String := "no server_pub_key on connection_url"

/-- Modelled from the spec: `FromStr` parsing of a `BinDataSized<N>` value
(implemented outside the file under study) — decode the stable textual
encoding, failing with a decode error on a malformed encoding and a size
error on a length mismatch. -/
def binFromStr (n : Nat) (s : String) : Except String (List Nat) :=
  match hexDecode s.data with
  | some bs =>
    if bs.length = n then Except.ok bs
    else Except.error "BinDataSized decode error: incorrect length"
  | none => Except.error "BinDataSized decode error: invalid encoding"

/-- The query-pair scan of `get_server_pub_key_from_connection_url`:
return the parse of the first `k` value, or the missing-key error. -/
def getServerPubKeyLoop : List (String × String) → Except String (List Nat)
  | [] => Except.error noPubKeyMsg
  | (k, v) :: rest => if k = "k" then binFromStr 32 v else getServerPubKeyLoop rest

/-- Mirrors `get_server_pub_key_from_connection_url`. -/
def get_server_pub_key_from_connection_url (u : Url) : Except String (List Nat) :=
  getServerPubKeyLoop u.query

/-- Modelled from the url crate interface: `Url::to_file_path` succeeds
exactly when the locator has no (or a localhost) authority and an absolute
path. -/
def urlToFilePath (u : Url) : Option (List Char) :=
  match u.host with
  | some h =>
    if h = "" ∨ h = "localhost" then
      match u.path with
      | '/' :: rest => some ('/' :: rest)
      | _ => none
    else none
  | Option.none =>
    match u.path with
    | '/' :: rest => some ('/' :: rest)
    | _ => none

/-- Outcome of a Rust function that may panic instead of returning. -/
inductive RustOutcome (α : Type) : Type
  | ret (a : α) : RustOutcome α
  | panic (msg : String) : RustOutcome α
  deriving DecidableEq

/-- The `expect` message of `get_connection_path`, from the source. -/
def connPathPanicMsg : String :=
  "The connection url is invalid, as it does not decode to\nan absolute file path. The likely cause is that a relative path was used instead of an absolute one.\nIf that\x27s the case, try using an absolute one instead."

/-- Mirrors `get_connection_path` on non-Windows targets: convert the url
to a file path, and `expect` (panic) when that fails. -/
def get_connection_path (u : Url) : RustOutcome (List Char) :=
  match urlToFilePath u with
  | some p => RustOutcome.ret p
  | Option.none => RustOutcome.panic connPathPanicMsg

/-- `binFromStr` only ever fails with one of its two parse errors, both
distinct from the missing-key error. -/
theorem binFromStr_error_ne (n : Nat) (s : String) (e : String)
    (h : binFromStr n s = Except.error e) : e ≠ noPubKeyMsg := by
  unfold binFromStr at h
  rcases hd : hexDecode s.data with _ | bs <;> rw [hd] at h
  · injection h with h
    subst h
    decide
  · by_cases hl : bs.length = n
    · simp [hl] at h
    · simp [hl] at h
      subst h
      decide

theorem getServerPubKeyLoop_no_k (q : List (String × String))
    (h : ∀ p ∈ q, p.1 ≠ "k") : getServerPubKeyLoop q = Except.error noPubKeyMsg := by
  induction q with
  | nil => rfl
  | cons p rest ih =>
    obtain ⟨k, v⟩ := p
    have hk : k ≠ "k" := h (k, v) (by simp)
    unfold getServerPubKeyLoop
    rw [if_neg hk]
    exact ih (fun p hp => h p (by simp [hp]))

theorem getServerPubKeyLoop_first_k (pre : List (String × String)) (v : String)
    (post : List (String × String)) (h : ∀ p ∈ pre, p.1 ≠ "k") :
    getServerPubKeyLoop (pre ++ ("k", v) :: post) = binFromStr 32 v := by
  induction pre with
  | nil =>
    simp [getServerPubKeyLoop]
  | cons p rest ih =>
    obtain ⟨k, w⟩ := p
    have hk : k ≠ "k" := h (k, w) (by simp)
    rw [List.cons_append]
    unfold getServerPubKeyLoop
    rw [if_neg hk]
    exact ih (fun p hp => h p (by simp [hp]))

/-- C4: a url whose query has no `k` parameter fails with the specific
missing-key error; a url whose (first) `k` value does not parse as a
32-byte public key fails with that parse error, which is distinct from
the missing-key error. -/
theorem pubkey_url_error_distinction :
    (∀ u : Url, (∀ p ∈ u.query, p.1 ≠ "k") →
      get_server_pub_key_from_connection_url u = Except.error noPubKeyMsg) ∧
    (∀ (u : Url) (pre : List (String × String)) (v : String)
      (post : List (String × String)) (e : String),
      u.query = pre ++ ("k", v) :: post → (∀ p ∈ pre, p.1 ≠ "k") →
      binFromStr 32 v = Except.error e →
      get_server_pub_key_from_connection_url u = Except.error e ∧ e ≠ noPubKeyMsg) := by
  constructor
  · intro u h
    exact getServerPubKeyLoop_no_k u.query h
  · intro u pre v post e hq hpre he
    refine ⟨?_, binFromStr_error_ne 32 v e he⟩
    unfold get_server_pub_key_from_connection_url
    rw [hq, getServerPubKeyLoop_first_k pre v post hpre, he]

/-- A locator with no `k` query parameter. -/
abbrev urlNoK : Url := ⟨"unix", Option.none, "/tmp/x/socket".data, [("a", "b")]⟩

/-- A locator whose `k` value is not a valid 32-byte key encoding. -/
abbrev urlBadK : Url := ⟨"unix", Option.none, "/tmp/x/socket".data, [("k", "zz")]⟩

/-- Witness for C4: the missing-key error on a concrete `k`-less locator,
and a distinct parse error on a concrete malformed `k` value. -/
theorem pubkey_url_error_distinction_witness :
    get_server_pub_key_from_connection_url urlNoK = Except.error noPubKeyMsg ∧
    get_server_pub_key_from_connection_url urlBadK =
      Except.error "BinDataSized decode error: invalid encoding" ∧
    "BinDataSized decode error: invalid encoding" ≠ noPubKeyMsg := by
  refine ⟨pubkey_url_error_distinction.1 urlNoK (by decide), ?_⟩
  exact pubkey_url_error_distinction.2 urlBadK [] "zz" [] _ rfl (by decide) rfl

/-- C9: when the query contains several `k` parameters, the result is the
parse of the first `k` value in query order; the later pairs are never
inspected (the result does not depend on them). -/
theorem pubkey_uses_first_k (u : Url) (pre : List (String × String)) (v : String)
    (post : List (String × String)) (hq : u.query = pre ++ ("k", v) :: post)
    (hpre : ∀ p ∈ pre, p.1 ≠ "k") :
    get_server_pub_key_from_connection_url u = binFromStr 32 v := by
  unfold get_server_pub_key_from_connection_url
  rw [hq]
  exact getServerPubKeyLoop_first_k pre v post hpre

/-- A locator with a valid first `k` value and a malformed second one. -/
abbrev urlTwoK : Url :=
  ⟨"unix", Option.none, "/tmp/x/socket".data,
   [("a", "b"),
    ("k", "0000000000000000000000000000000000000000000000000000000000000000"),
    ("k", "zz")]⟩

/-- Witness for C9: with a valid first `k` followed by a malformed second
`k`, the parse succeeds with the first value. -/
theorem pubkey_uses_first_k_witness :
    get_server_pub_key_from_connection_url urlTwoK = Except.ok (List.replicate 32 0) := by
  rw [pubkey_uses_first_k urlTwoK [("a", "b")]
    "0000000000000000000000000000000000000000000000000000000000000000"
    [("k", "zz")] rfl (by decide)]
  rfl

/-- Counterexample for C5 as stated: at a locator that does not resolve to
an absolute file path, `get_connection_path` panics (the `expect` call)
instead of returning an error to the caller. -/
theorem get_connection_path_panics_cx :
    get_connection_path ⟨"unix", some "socket", [], []⟩ =
      RustOutcome.panic connPathPanicMsg := rfl

/-- C5 amended: for every locator url that cannot be resolved to an
absolute filesystem path, `get_connection_path` panics with the fixed
descriptive message (rather than returning an error value). -/
theorem get_connection_path_unresolvable_panics (u : Url)
    (h : urlToFilePath u = Option.none) :
    get_connection_path u = RustOutcome.panic connPathPanicMsg := by
  unfold get_connection_path
  rw [h]

/-- Witness for the amended C5 at a concrete unresolvable locator. -/
theorem get_connection_path_unresolvable_panics_witness :
    urlToFilePath ⟨"unix", some "sock", [], []⟩ = Option.none ∧
    get_connection_path ⟨"unix", some "sock", [], []⟩ =
      RustOutcome.panic connPathPanicMsg :=
  ⟨rfl, get_connection_path_unresolvable_panics ⟨"unix", some "sock", [], []⟩ rfl⟩

/-! ## The symbolic view of `LairServerConfigInner::new`

The cryptographic primitives used by the constructor are modelled as
constructors of a free algebra `SVal`, so that the dataflow of the
derivation pipeline (which value feeds which primitive, with which
labels, indices, lengths and cost parameters) is preserved exactly.  A
`randomBytes i n` node stands for the `i`-th `randombytes_buf` call of
the constructor, drawing `n` bytes.  Each primitive carries the length
of its output buffer. -/

inductive SVal : Type
  | lit (bytes : List Nat) : SVal
  | randomBytes (callsite len : Nat) : SVal
  | blake2b (outLen : Nat) (input : SVal) : SVal
  | argon2id (outLen : Nat) (pw salt : SVal) (opsLimit memLimit : Nat) : SVal
  | deriveFromKey (outLen index : Nat) (ctx : String) (parent : SVal) : SVal
  | seedKeypairPub (outLen : Nat) (seed : SVal) : SVal
  | seedKeypairSec (outLen : Nat) (seed : SVal) : SVal
  | encrypt (key plaintext : SVal) : SVal
  deriving DecidableEq

/-- `sodoken::argon2::ARGON2_ID_SALTBYTES` (libsodium argon2id salt size). -/
def ARGON2_ID_SALTBYTES : Nat := 16

/-- `sodoken::crypto_box::XSALSA_PUBLICKEYBYTES`. -/
def XSALSA_PUBLICKEYBYTES : Nat := 32

/-- `PID_FILE_NAME` from the source. -/
def PID_FILE_NAME : String := "pid_file"

/-- `STORE_FILE_NAME` from the source. -/
def STORE_FILE_NAME : String := "store_file"

/-- The connection url built by the constructor, by components: the
scheme, the path segments, and the symbolic public key carried by the
`k` query parameter. -/
structure BuiltUrl : Type where
  scheme : String
  path : List String
  k : SVal
  deriving DecidableEq

/-- The record assembled by the constructor, over symbolic secret values.
Paths are segment lists. -/
structure LairServerConfigBuilt : Type where
  connection_url : BuiltUrl
  pid_file : List String
  store_file : List String
  signature_fallback : LairServerSignatureFallback
  database_salt : SVal
  runtime_secrets_salt : SVal
  runtime_secrets_mem_limit : Nat
  runtime_secrets_ops_limit : Nat
  runtime_secrets_context_key : SVal
  runtime_secrets_id_seed : SVal
  deriving DecidableEq

/-- Mirrors `LairServerConfigInner::new` (the non-Windows branch) over the
symbolic value algebra.  `canonRes` is the outcome of
`dunce::canonicalize(root_path)` — a filesystem operation, supplied as an
input; its failure is propagated by the `?` of the source.  `opsLimit`
and `memLimit` are the captured `PwHashLimits`. -/
def configNew (root : List String) (passphrase : SVal) (opsLimit memLimit : Nat)
    (canonRes : Except String (List String)) : Except String LairServerConfigBuilt :=
  let pid_file := root ++ [PID_FILE_NAME]
  let store_file := root ++ [STORE_FILE_NAME]
  let pw_hash := SVal.blake2b 64 passphrase
  let salt := SVal.randomBytes 0 ARGON2_ID_SALTBYTES
  let pre_secret := SVal.argon2id 32 pw_hash salt opsLimit memLimit
  let ctx_secret := SVal.deriveFromKey 32 42 "CtxSecKy" pre_secret
  let id_secret := SVal.deriveFromKey 32 142 "IdnSecKy" pre_secret
  let context_key := SVal.randomBytes 1 32
  let id_seed := SVal.randomBytes 2 32
  let id_pk := SVal.seedKeypairPub XSALSA_PUBLICKEYBYTES id_seed
  let context_key_enc := SVal.encrypt ctx_secret context_key
  let id_seed_enc := SVal.encrypt id_secret id_seed
  match canonRes with
  | Except.error e => Except.error e
  | Except.ok conRoot =>
    let con_path := conRoot ++ ["socket"]
    let connection_url : BuiltUrl := ⟨"unix", con_path, id_pk⟩
    let db_salt := SVal.randomBytes 3 16
    Except.ok ⟨connection_url, pid_file, store_file, LairServerSignatureFallback.none,
      db_salt, salt, memLimit, opsLimit, context_key_enc, id_seed_enc⟩

/-- A primitive application is never equal to its own argument. -/
theorem sval_blake2b_ne (n : Nat) (v : SVal) : SVal.blake2b n v ≠ v := by
  intro h
  have h2 := congrArg sizeOf h
  simp [SVal.blake2b.sizeOf_spec] at h2

/-- C2: on every successful run of the constructor, the stored
`runtime_secrets_salt`, `runtime_secrets_ops_limit` and
`runtime_secrets_mem_limit` are exactly the salt and the argon2id cost
parameters of the key-derivation step that produced the two sub-keys
under which the context key and the identity seed were encrypted. -/
theorem new_stores_exact_kdf_params (root : List String) (pp : SVal) (ops mem : Nat)
    (canonRes : Except String (List String)) (cfg : LairServerConfigBuilt)
    (h : configNew root pp ops mem canonRes = Except.ok cfg) :
    ∃ ck idseed,
      cfg.runtime_secrets_context_key =
        SVal.encrypt (SVal.deriveFromKey 32 42 "CtxSecKy"
          (SVal.argon2id 32 (SVal.blake2b 64 pp) cfg.runtime_secrets_salt
            cfg.runtime_secrets_ops_limit cfg.runtime_secrets_mem_limit)) ck ∧
      cfg.runtime_secrets_id_seed =
        SVal.encrypt (SVal.deriveFromKey 32 142 "IdnSecKy"
          (SVal.argon2id 32 (SVal.blake2b 64 pp) cfg.runtime_secrets_salt
            cfg.runtime_secrets_ops_limit cfg.runtime_secrets_mem_limit)) idseed := by
  cases canonRes with
  | error e => simp [configNew] at h
  | ok cr =>
    simp only [configNew] at h
    rw [Except.ok.injEq] at h
    subst h
    exact ⟨SVal.randomBytes 1 32, SVal.randomBytes 2 32, rfl, rfl⟩

/-- The record produced by the constructor at concrete inputs
(root `tmp/x`, passphrase byte `1`, ops limit 2, mem limit 8). -/
abbrev cfgB : LairServerConfigBuilt :=
  ⟨⟨"unix", ["tmp", "x", "socket"], SVal.seedKeypairPub 32 (SVal.randomBytes 2 32)⟩,
   ["tmp", "x", "pid_file"], ["tmp", "x", "store_file"], LairServerSignatureFallback.none,
   SVal.randomBytes 3 16, SVal.randomBytes 0 16, 8, 2,
   SVal.encrypt (SVal.deriveFromKey 32 42 "CtxSecKy"
     (SVal.argon2id 32 (SVal.blake2b 64 (SVal.lit [1])) (SVal.randomBytes 0 16) 2 8))
     (SVal.randomBytes 1 32),
   SVal.encrypt (SVal.deriveFromKey 32 142 "IdnSecKy"
     (SVal.argon2id 32 (SVal.blake2b 64 (SVal.lit [1])) (SVal.randomBytes 0 16) 2 8))
     (SVal.randomBytes 2 32)⟩

/-- Witness for C2 at concrete inputs. -/
theorem new_stores_exact_kdf_params_witness :
    ∃ ck idseed,
      cfgB.runtime_secrets_context_key =
        SVal.encrypt (SVal.deriveFromKey 32 42 "CtxSecKy"
          (SVal.argon2id 32 (SVal.blake2b 64 (SVal.lit [1])) cfgB.runtime_secrets_salt
            cfgB.runtime_secrets_ops_limit cfgB.runtime_secrets_mem_limit)) ck ∧
      cfgB.runtime_secrets_id_seed =
        SVal.encrypt (SVal.deriveFromKey 32 142 "IdnSecKy"
          (SVal.argon2id 32 (SVal.blake2b 64 (SVal.lit [1])) cfgB.runtime_secrets_salt
            cfgB.runtime_secrets_ops_limit cfgB.runtime_secrets_mem_limit)) idseed :=
  new_stores_exact_kdf_params ["tmp", "x"] (SVal.lit [1]) 2 8 (Except.ok ["tmp", "x"]) cfgB rfl

/-- C3: the two 32-byte sub-keys are derived from the same pre-secret by
the keyed derivation function, with distinct domain-separation labels
(`CtxSecKy` versus `IdnSecKy`) and distinct derivation indices (42 versus
142). -/
theorem new_subkey_domain_separation (root : List String) (pp : SVal) (ops mem : Nat)
    (canonRes : Except String (List String)) (cfg : LairServerConfigBuilt)
    (h : configNew root pp ops mem canonRes = Except.ok cfg) :
    ∃ pre ck idseed,
      cfg.runtime_secrets_context_key =
        SVal.encrypt (SVal.deriveFromKey 32 42 "CtxSecKy" pre) ck ∧
      cfg.runtime_secrets_id_seed =
        SVal.encrypt (SVal.deriveFromKey 32 142 "IdnSecKy" pre) idseed ∧
      (42 : Nat) ≠ 142 ∧ "CtxSecKy" ≠ "IdnSecKy" := by
  cases canonRes with
  | error e => simp [configNew] at h
  | ok cr =>
    simp only [configNew] at h
    rw [Except.ok.injEq] at h
    subst h
    exact ⟨SVal.argon2id 32 (SVal.blake2b 64 pp) (SVal.randomBytes 0 ARGON2_ID_SALTBYTES) ops mem,
      SVal.randomBytes 1 32, SVal.randomBytes 2 32, rfl, rfl, by decide, by decide⟩

/-- Witness for C3 at concrete inputs. -/
theorem new_subkey_domain_separation_witness :
    ∃ pre ck idseed,
      cfgB.runtime_secrets_context_key =
        SVal.encrypt (SVal.deriveFromKey 32 42 "CtxSecKy" pre) ck ∧
      cfgB.runtime_secrets_id_seed =
        SVal.encrypt (SVal.deriveFromKey 32 142 "IdnSecKy" pre) idseed ∧
      (42 : Nat) ≠ 142 ∧ "CtxSecKy" ≠ "IdnSecKy" :=
  new_subkey_domain_separation ["tmp", "x"] (SVal.lit [1]) 2 8 (Except.ok ["tmp", "x"]) cfgB rfl

/-- C7: the passphrase is first pre-hashed with blake2b into a 64-byte
value, and argon2id runs over that pre-hash — not over the raw
passphrase — with the fresh random 16-byte salt (the first randomness
draw) and the caller-selected cost parameters, producing the 32-byte
pre-secret that feeds the sub-key derivations. -/
theorem new_prehash_then_argon2id (root : List String) (pp : SVal) (ops mem : Nat)
    (canonRes : Except String (List String)) (cfg : LairServerConfigBuilt)
    (h : configNew root pp ops mem canonRes = Except.ok cfg) :
    ARGON2_ID_SALTBYTES = 16 ∧
    SVal.blake2b 64 pp ≠ pp ∧
    ∃ ck,
      cfg.runtime_secrets_context_key =
        SVal.encrypt (SVal.deriveFromKey 32 42 "CtxSecKy"
          (SVal.argon2id 32 (SVal.blake2b 64 pp)
            (SVal.randomBytes 0 ARGON2_ID_SALTBYTES) ops mem)) ck := by
  cases canonRes with
  | error e => simp [configNew] at h
  | ok cr =>
    simp only [configNew] at h
    rw [Except.ok.injEq] at h
    subst h
    exact ⟨rfl, sval_blake2b_ne 64 pp, SVal.randomBytes 1 32, rfl⟩

/-- Witness for C7 at concrete inputs. -/
theorem new_prehash_then_argon2id_witness :
    ARGON2_ID_SALTBYTES = 16 ∧
    SVal.blake2b 64 (SVal.lit [1]) ≠ SVal.lit [1] ∧
    ∃ ck,
      cfgB.runtime_secrets_context_key =
        SVal.encrypt (SVal.deriveFromKey 32 42 "CtxSecKy"
          (SVal.argon2id 32 (SVal.blake2b 64 (SVal.lit [1]))
            (SVal.randomBytes 0 ARGON2_ID_SALTBYTES) 2 8)) ck :=
  new_prehash_then_argon2id ["tmp", "x"] (SVal.lit [1]) 2 8 (Except.ok ["tmp", "x"]) cfgB rfl

/-- C6: on a successful non-Windows run, the record has
`pid_file = root ++ [pid_file]`, `store_file = root ++ [store_file]`, a
`unix`-scheme connection url whose path is the canonicalized root
followed by `socket`, a `k` parameter holding the (32-byte) public key
derived from the identity seed, and `signature_fallback = None`. -/
theorem new_paths_and_url (root : List String) (pp : SVal) (ops mem : Nat)
    (cr : List String) (cfg : LairServerConfigBuilt)
    (h : configNew root pp ops mem (Except.ok cr) = Except.ok cfg) :
    cfg.pid_file = root ++ ["pid_file"] ∧
    cfg.store_file = root ++ ["store_file"] ∧
    cfg.connection_url.scheme = "unix" ∧
    cfg.connection_url.path = cr ++ ["socket"] ∧
    (∃ seed, cfg.connection_url.k = SVal.seedKeypairPub 32 seed) ∧
    cfg.signature_fallback = LairServerSignatureFallback.none := by
  simp only [configNew] at h
  rw [Except.ok.injEq] at h
  subst h
  exact ⟨rfl, rfl, rfl, rfl, ⟨SVal.randomBytes 2 32, rfl⟩, rfl⟩

/-- Witness for C6 at concrete inputs. -/
theorem new_paths_and_url_witness :
    cfgB.pid_file = ["tmp", "x"] ++ ["pid_file"] ∧
    cfgB.store_file = ["tmp", "x"] ++ ["store_file"] ∧
    cfgB.connection_url.scheme = "unix" ∧
    cfgB.connection_url.path = ["tmp", "x"] ++ ["socket"] ∧
    (∃ seed, cfgB.connection_url.k = SVal.seedKeypairPub 32 seed) ∧
    cfgB.signature_fallback = LairServerSignatureFallback.none :=
  new_paths_and_url ["tmp", "x"] (SVal.lit [1]) 2 8 ["tmp", "x"] cfgB rfl

/-- C10: the constructor propagates a canonicalization failure of the
root path as an error (returning no record), and every successful run
requires the canonicalization to have succeeded. -/
theorem new_requires_canonical_root (root : List String) (pp : SVal) (ops mem : Nat) :
    (∀ e, configNew root pp ops mem (Except.error e) = Except.error e) ∧
    (∀ canonRes cfg, configNew root pp ops mem canonRes = Except.ok cfg →
      ∃ cr, canonRes = Except.ok cr) := by
  constructor
  · intro e
    rfl
  · intro canonRes cfg h
    cases canonRes with
    | error e => simp [configNew] at h
    | ok cr => exact ⟨cr, rfl⟩

/-- Witness for C10 at concrete inputs. -/
theorem new_requires_canonical_root_witness :
    configNew ["tmp", "x"] (SVal.lit [1]) 2 8 (Except.error "no such directory") =
      Except.error "no such directory" ∧
    ∃ cr, (Except.ok ["tmp", "x"] : Except String (List String)) = Except.ok cr :=
  ⟨(new_requires_canonical_root ["tmp", "x"] (SVal.lit [1]) 2 8).1 "no such directory",
   (new_requires_canonical_root ["tmp", "x"] (SVal.lit [1]) 2 8).2
     (Except.ok ["tmp", "x"]) cfgB rfl⟩

/-! ## Banner placement (the Display comment layout) -/

theorem bannerFor_marker : bannerFor markerL = [] := rfl
theorem bannerFor_cu (v : List Char) : bannerFor (cuKey ++ v) = cuBanner := rfl
theorem bannerFor_pid (v : List Char) : bannerFor (pidKey ++ v) = pidBanner := rfl
theorem bannerFor_store (v : List Char) : bannerFor (storeKey ++ v) = storeBanner := rfl
theorem bannerFor_signone : bannerFor sigNoneL = sigBanner := rfl
theorem bannerFor_sigcmd : bannerFor sigCmdL = sigBanner := rfl
theorem bannerFor_prog (v : List Char) : bannerFor (progKey ++ v) = [] := rfl
theorem bannerFor_argsnull : bannerFor argsNullL = [] := rfl
theorem bannerFor_argsempty : bannerFor argsEmptyL = [] := rfl
theorem bannerFor_argskey : bannerFor argsKeyL = [] := rfl
theorem bannerFor_item (v : List Char) : bannerFor (itemPfx ++ v) = [] := rfl
theorem bannerFor_db (v : List Char) : bannerFor (dbKey ++ v) = dbBanner := rfl
theorem bannerFor_salt (v : List Char) : bannerFor (saltKey ++ v) = [] := rfl
theorem bannerFor_mem (v : List Char) : bannerFor (memKey ++ v) = [] := rfl
theorem bannerFor_ops (v : List Char) : bannerFor (opsKey ++ v) = [] := rfl
theorem bannerFor_ctx (v : List Char) : bannerFor (ctxKey ++ v) = [] := rfl
theorem bannerFor_seed (v : List Char) : bannerFor (seedKey ++ v) = [] := rfl
theorem bannerFor_blank : bannerFor [] = [] := rfl

/-- The banner insertion applied to every line (what `injectComments`
performs once past the first line). -/
def injectAll : List (List Char) → List (List Char)
  | [] => []
  | l :: rest => bannerFor l ++ l :: injectAll rest

theorem injectComments_pos (i : Nat) (hi : 0 < i) (L : List (List Char)) :
    injectComments i L = injectAll L := by
  induction L generalizing i with
  | nil => rfl
  | cons l rest ih =>
    unfold injectComments injectAll
    rw [if_pos hi, ih (i + 1) (by omega)]

theorem injectAll_append (A B : List (List Char)) :
    injectAll (A ++ B) = injectAll A ++ injectAll B := by
  induction A with
  | nil => rfl
  | cons l rest ih =>
    show bannerFor l ++ l :: injectAll (rest ++ B) =
      (bannerFor l ++ l :: injectAll rest) ++ injectAll B
    rw [ih]
    simp [List.append_assoc]

/-- The banners added inside the fallback segment: one `sigBanner` before
its first line, nothing before the nested lines. -/
theorem injectAll_sigYamlLines (sf : LairServerSignatureFallback) :
    injectAll (sigYamlLines sf) = sigBanner ++ sigYamlLines sf := by
  cases sf with
  | none =>
    show injectAll [sigNoneL] = _
    simp [injectAll, bannerFor_signone, sigYamlLines]
  | command p args =>
    cases args with
    | none =>
      show injectAll (sigCmdL :: (progKey ++ p) :: [argsNullL]) = _
      simp [injectAll, bannerFor_sigcmd, bannerFor_prog, bannerFor_argsnull, sigYamlLines]
    | some l =>
      cases l with
      | nil =>
        show injectAll (sigCmdL :: (progKey ++ p) :: [argsEmptyL]) = _
        simp [injectAll, bannerFor_sigcmd, bannerFor_prog, bannerFor_argsempty, sigYamlLines]
      | cons x xs =>
        show injectAll (sigCmdL :: (progKey ++ p) :: argsKeyL ::
          (x :: xs).map (fun a => itemPfx ++ a)) = _
        have items : ∀ ys : List (List Char),
            injectAll (ys.map (fun a => itemPfx ++ a)) = ys.map (fun a => itemPfx ++ a) := by
          intro ys
          induction ys with
          | nil => rfl
          | cons a rest ih =>
            simp only [List.map_cons, injectAll, bannerFor_item, ih, List.nil_append]
        simp only [injectAll, bannerFor_sigcmd, bannerFor_prog, bannerFor_argskey,
          bannerFor_item]
        rw [items xs]
        simp [sigYamlLines, List.append_assoc]

/-- The rendered document, with the banners made explicit: the marker
line, then each field line preceded by its banner (or by nothing). -/
theorem fmtLines_shape (c : LairServerConfigInner) :
    fmtLines c =
      ([markerL] ++ cuBanner ++ [cuKey ++ c.connection_url] ++
        pidBanner ++ [pidKey ++ c.pid_file] ++
        storeBanner ++ [storeKey ++ c.store_file]) ++
      (sigBanner ++ sigYamlLines c.signature_fallback) ++
      (dbBanner ++ [dbKey ++ hexEncode c.database_salt,
        saltKey ++ hexEncode c.runtime_secrets_salt,
        memKey ++ natToDec c.runtime_secrets_mem_limit,
        opsKey ++ natToDec c.runtime_secrets_ops_limit,
        ctxKey ++ hexEncode c.runtime_secrets_context_key,
        seedKey ++ hexEncode c.runtime_secrets_id_seed, []]) := by
  unfold fmtLines yamlLines
  rw [List.cons_append]
  rw [injectComments]
  rw [if_neg (show ¬(0 : Nat) < 0 from by omega), List.nil_append]
  simp only [Nat.zero_add]
  rw [injectComments_pos 1 (by omega)]
  unfold bodyLines
  simp only [List.cons_append, List.append_assoc, List.nil_append]
  simp only [injectAll, bannerFor_cu, bannerFor_pid, bannerFor_store]
  rw [injectAll_append, injectAll_sigYamlLines]
  simp only [injectAll, bannerFor_db, bannerFor_salt, bannerFor_mem, bannerFor_ops,
    bannerFor_ctx, bannerFor_seed, bannerFor_blank]
  simp [List.append_assoc]

/-- C8: the rendered text carries the fixed explanatory banner immediately
before each of the `connectionUrl`, `pidFile`, `storeFile`,
`signatureFallback` and `databaseSalt` lines, and no banner before any
other field line: each remaining field line immediately follows the
previous field line. -/
theorem display_banner_placement (c : LairServerConfigInner) :
    (cuBanner ++ [cuKey ++ c.connection_url]) <:+: fmtLines c ∧
    (pidBanner ++ [pidKey ++ c.pid_file]) <:+: fmtLines c ∧
    (storeBanner ++ [storeKey ++ c.store_file]) <:+: fmtLines c ∧
    (sigBanner ++ sigYamlLines c.signature_fallback) <:+: fmtLines c ∧
    (dbBanner ++ [dbKey ++ hexEncode c.database_salt]) <:+: fmtLines c ∧
    [dbKey ++ hexEncode c.database_salt,
      saltKey ++ hexEncode c.runtime_secrets_salt] <:+: fmtLines c ∧
    [saltKey ++ hexEncode c.runtime_secrets_salt,
      memKey ++ natToDec c.runtime_secrets_mem_limit] <:+: fmtLines c ∧
    [memKey ++ natToDec c.runtime_secrets_mem_limit,
      opsKey ++ natToDec c.runtime_secrets_ops_limit] <:+: fmtLines c ∧
    [opsKey ++ natToDec c.runtime_secrets_ops_limit,
      ctxKey ++ hexEncode c.runtime_secrets_context_key] <:+: fmtLines c ∧
    [ctxKey ++ hexEncode c.runtime_secrets_context_key,
      seedKey ++ hexEncode c.runtime_secrets_id_seed] <:+: fmtLines c := by
  refine ⟨⟨[markerL],
      pidBanner ++ (pidKey ++ c.pid_file) :: (storeBanner ++ (storeKey ++ c.store_file) ::
        (sigBanner ++ (sigYamlLines c.signature_fallback ++ (dbBanner ++
          [dbKey ++ hexEncode c.database_salt, saltKey ++ hexEncode c.runtime_secrets_salt,
           memKey ++ natToDec c.runtime_secrets_mem_limit,
           opsKey ++ natToDec c.runtime_secrets_ops_limit,
           ctxKey ++ hexEncode c.runtime_secrets_context_key,
           seedKey ++ hexEncode c.runtime_secrets_id_seed, []])))), ?_⟩,
    ⟨[markerL] ++ cuBanner ++ [cuKey ++ c.connection_url],
      storeBanner ++ (storeKey ++ c.store_file) ::
        (sigBanner ++ (sigYamlLines c.signature_fallback ++ (dbBanner ++
          [dbKey ++ hexEncode c.database_salt, saltKey ++ hexEncode c.runtime_secrets_salt,
           memKey ++ natToDec c.runtime_secrets_mem_limit,
           opsKey ++ natToDec c.runtime_secrets_ops_limit,
           ctxKey ++ hexEncode c.runtime_secrets_context_key,
           seedKey ++ hexEncode c.runtime_secrets_id_seed, []]))), ?_⟩,
    ⟨[markerL] ++ cuBanner ++ [cuKey ++ c.connection_url] ++ pidBanner ++
        [pidKey ++ c.pid_file],
      sigBanner ++ (sigYamlLines c.signature_fallback ++ (dbBanner ++
        [dbKey ++ hexEncode c.database_salt, saltKey ++ hexEncode c.runtime_secrets_salt,
         memKey ++ natToDec c.runtime_secrets_mem_limit,
         opsKey ++ natToDec c.runtime_secrets_ops_limit,
         ctxKey ++ hexEncode c.runtime_secrets_context_key,
         seedKey ++ hexEncode c.runtime_secrets_id_seed, []])), ?_⟩,
    ⟨[markerL] ++ cuBanner ++ [cuKey ++ c.connection_url] ++ pidBanner ++
        [pidKey ++ c.pid_file] ++ storeBanner ++ [storeKey ++ c.store_file],
      dbBanner ++
        [dbKey ++ hexEncode c.database_salt, saltKey ++ hexEncode c.runtime_secrets_salt,
         memKey ++ natToDec c.runtime_secrets_mem_limit,
         opsKey ++ natToDec c.runtime_secrets_ops_limit,
         ctxKey ++ hexEncode c.runtime_secrets_context_key,
         seedKey ++ hexEncode c.runtime_secrets_id_seed, []], ?_⟩,
    ⟨[markerL] ++ cuBanner ++ [cuKey ++ c.connection_url] ++ pidBanner ++
        [pidKey ++ c.pid_file] ++ storeBanner ++ [storeKey ++ c.store_file] ++
        sigBanner ++ sigYamlLines c.signature_fallback,
      [saltKey ++ hexEncode c.runtime_secrets_salt,
       memKey ++ natToDec c.runtime_secrets_mem_limit,
       opsKey ++ natToDec c.runtime_secrets_ops_limit,
       ctxKey ++ hexEncode c.runtime_secrets_context_key,
       seedKey ++ hexEncode c.runtime_secrets_id_seed, []], ?_⟩,
    ⟨[markerL] ++ cuBanner ++ [cuKey ++ c.connection_url] ++ pidBanner ++
        [pidKey ++ c.pid_file] ++ storeBanner ++ [storeKey ++ c.store_file] ++
        sigBanner ++ sigYamlLines c.signature_fallback ++ dbBanner,
      [memKey ++ natToDec c.runtime_secrets_mem_limit,
       opsKey ++ natToDec c.runtime_secrets_ops_limit,
       ctxKey ++ hexEncode c.runtime_secrets_context_key,
       seedKey ++ hexEncode c.runtime_secrets_id_seed, []], ?_⟩,
    ⟨[markerL] ++ cuBanner ++ [cuKey ++ c.connection_url] ++ pidBanner ++
        [pidKey ++ c.pid_file] ++ storeBanner ++ [storeKey ++ c.store_file] ++
        sigBanner ++ sigYamlLines c.signature_fallback ++ dbBanner ++
        [dbKey ++ hexEncode c.database_salt],
      [opsKey ++ natToDec c.runtime_secrets_ops_limit,
       ctxKey ++ hexEncode c.runtime_secrets_context_key,
       seedKey ++ hexEncode c.runtime_secrets_id_seed, []], ?_⟩,
    ⟨[markerL] ++ cuBanner ++ [cuKey ++ c.connection_url] ++ pidBanner ++
        [pidKey ++ c.pid_file] ++ storeBanner ++ [storeKey ++ c.store_file] ++
        sigBanner ++ sigYamlLines c.signature_fallback ++ dbBanner ++
        [dbKey ++ hexEncode c.database_salt, saltKey ++ hexEncode c.runtime_secrets_salt],
      [ctxKey ++ hexEncode c.runtime_secrets_context_key,
       seedKey ++ hexEncode c.runtime_secrets_id_seed, []], ?_⟩,
    ⟨[markerL] ++ cuBanner ++ [cuKey ++ c.connection_url] ++ pidBanner ++
        [pidKey ++ c.pid_file] ++ storeBanner ++ [storeKey ++ c.store_file] ++
        sigBanner ++ sigYamlLines c.signature_fallback ++ dbBanner ++
        [dbKey ++ hexEncode c.database_salt, saltKey ++ hexEncode c.runtime_secrets_salt,
         memKey ++ natToDec c.runtime_secrets_mem_limit],
      [seedKey ++ hexEncode c.runtime_secrets_id_seed, []], ?_⟩,
    ⟨[markerL] ++ cuBanner ++ [cuKey ++ c.connection_url] ++ pidBanner ++
        [pidKey ++ c.pid_file] ++ storeBanner ++ [storeKey ++ c.store_file] ++
        sigBanner ++ sigYamlLines c.signature_fallback ++ dbBanner ++
        [dbKey ++ hexEncode c.database_salt, saltKey ++ hexEncode c.runtime_secrets_salt,
         memKey ++ natToDec c.runtime_secrets_mem_limit,
         opsKey ++ natToDec c.runtime_secrets_ops_limit],
      [[]], ?_⟩⟩ <;>
    (rw [fmtLines_shape c]; try simp [List.append_assoc])
